import Mathlib

set_option autoImplicit false

/-
Verification of the lazy method-resolution trampoline in
`src/oat/runtime/support_stubs.cc` (function
`UnresolvedDirectMethodTrampolineFromCode`, plus its LLVM-backend twin).

Modelling conventions:
- pointers are modelled as `Nat`, with `0` standing for `NULL`;
- `CHECK` / `DCHECK` / `LOG(FATAL)` failures abort the process; aborting
  paths are modelled by `Option.none`;
- the collaborators consumed by the trampoline (class linker, dex decoding,
  the runtime singletons) live outside this file's source; they are modelled
  as oracle functions carried by an `Env` record;
- the raw register/stack area reachable from `sp` is a word-indexed memory
  `Nat → Nat`; the per-architecture decode step turns it into the `regs`
  view used by the body of the function.
-/

namespace ArtStubs

/-- Invoke kinds (`InvokeType` in the runtime): the classification of a call
site into direct / static / super / virtual. -/
inductive InvokeType where
  | kDirect
  | kStatic
  | kSuper
  | kVirtual
  deriving DecidableEq, Inhabited, Repr

/-- `Runtime::TrampolineType`: the marker passed by the stub.  `kUnknownMethod`
means the call site must be decoded; the other values carry an explicit
invoke kind (static resp. direct). -/
inductive TrampolineType where
  | kUnknownMethod
  | kStaticMethod
  | kDirectMethod
  deriving DecidableEq, Inhabited, Repr

/-- The dex opcodes distinguished by the trampoline's call-site decode switch
(`Instruction::Code`).  `OTHER_OPCODE` stands for every opcode that is none of
the ten invoke instructions. -/
inductive InstructionCode where
  | INVOKE_VIRTUAL
  | INVOKE_SUPER
  | INVOKE_DIRECT
  | INVOKE_STATIC
  | INVOKE_INTERFACE
  | INVOKE_VIRTUAL_RANGE
  | INVOKE_SUPER_RANGE
  | INVOKE_DIRECT_RANGE
  | INVOKE_STATIC_RANGE
  | INVOKE_INTERFACE_RANGE
  | OTHER_OPCODE
  deriving DecidableEq, Inhabited, Repr, Fintype

/-- Class initialization states, as in the spec's `ClassInitState` enum. -/
inductive ClassState where
  | Erroneous
  | Uninitialized
  | Initializing
  | Initialized
  deriving DecidableEq, Inhabited, Repr

/-- `Class::IsInitialized()`. -/
def ClassState.isInitialized : ClassState → Bool
  | .Initialized => true
  | _ => false

/-- Modelled from the spec: `Class::IsInitializing()` of the runtime's object
model (not under `src/`) holds for every class that is *at least*
Initializing — an Initialized class also reports initializing (the spec's
"class not at least Initializing" phrasing). -/
def ClassState.isInitializing : ClassState → Bool
  | .Initializing => true
  | .Initialized => true
  | _ => false

/-- `Class::IsErroneous()`. -/
def ClassState.isErroneous : ClassState → Bool
  | .Erroneous => true
  | _ => false

/-- The method metadata the trampoline reads (`AbstractMethod`).  `self` is
the pointer value of the object itself (written into the result slot),
`methodCode` is `GetCode()` (0 = NULL). -/
structure AbstractMethod where
  self : Nat
  dexMethodIdx : Nat
  declaringClass : Nat
  methodCode : Nat
  shorty : String
  isRuntimeMethod : Bool
  deriving DecidableEq, Inhabited, Repr

/-- The two concrete architectures of the non-LLVM backend. -/
inductive Arch where
  | arm
  | i386
  deriving DecidableEq, Inhabited, Repr

/-- The three ways a trampoline invocation can hand control onward. -/
inductive Outcome where
  | exceptionPath
  | retrySelf
  | resolvedEntry
  deriving DecidableEq, Inhabited, Repr

/-- Thread-visible state on entry: the pending exception (`Thread`'s
exception slot, as an object pointer), the class-state table, and the JNI
local references already open when the trampoline starts. -/
structure ThreadState where
  pendingBefore : Option Nat
  classStates : Nat → ClassState
  openRefs : List Nat

/-- Oracle functions for the collaborators the trampoline calls into; each
field corresponds to one external call of `support_stubs.cc`.
`calleeSaveFrameBytes` is
`Runtime::Current()->GetCalleeSaveMethod(kRefsAndArgs)->GetFrameSizeInBytes()`;
`dexPcOf` is `caller->ToDexPc(caller_pc)`; `opcodeAt` / `vBAt` decode the
caller's code item at a dex pc; `methodShortyOf` is
`ClassLinker::MethodShorty`; `resolveMethod` is `ClassLinker::ResolveMethod`
(failure attaches the exception object instead of returning a method);
`incompatible` is `AbstractMethod::CheckIncompatibleClassChange`;
`ensureInit` is `ClassLinker::EnsureInitialized`, returning the class state
observed after the call together with the exception it raised (if any);
`getOatCodeFor` is `ClassLinker::GetOatCodeFor`; `resolutionStubData` is
`Runtime::GetResolutionStubArray(kUnknownMethod)->GetData()`;
`deliverExceptionAddr` is `art_deliver_exception_from_code`;
`trampolineAddr` is the address through which unresolved calls enter this
trampoline (kept in place in the oat code while a class initializes);
`currentDexPc` is the dex pc reported by `Thread::GetCurrentMethod` (used by
the LLVM-backend variant). -/
structure Env where
  calleeSaveFrameBytes : Nat
  dexPcOf : Nat → Nat
  insnsSize : Nat
  opcodeAt : Nat → InstructionCode
  vBAt : Nat → Nat
  methodShortyOf : Nat → String
  resolveMethod : Nat → InvokeType → Except Nat AbstractMethod
  incompatible : AbstractMethod → InvokeType → Bool
  ensureInit : Nat → ClassState → ClassState × Option Nat
  getOatCodeFor : AbstractMethod → Nat
  resolutionStubData : Nat
  deliverExceptionAddr : Nat
  trampolineAddr : Nat
  currentDexPc : Nat

/-- Calling-convention decode (lines 38–82): from the word-addressed memory
at `sp`, produce the `regs` view and the caller's pc, after asserting the
compiled-in callee-save frame size (`DCHECK_EQ`, an abort on mismatch).
On ARM `regs = sp + kPointerSize` (so `regs i` is the word at `sp + 4(i+1)`)
and `caller_pc = regs[10]`; on i386 `regs = sp` and `caller_pc = regs[7]`. -/
def decodeCallingConvention (arch : Arch) (runtimeFrameBytes : Nat) (mem : Nat → Nat) :
    Option ((Nat → Nat) × Nat) :=
  match arch with
  | .arm =>
    if runtimeFrameBytes = 48 then
      let regs : Nat → Nat := fun i => mem (i + 1)
      some (regs, regs 10)
    else none
  | .i386 =>
    if runtimeFrameBytes = 32 then
      let regs : Nat → Nat := mem
      some (regs, regs 7)
    else none

/-- The call-site decode switch (lines 105–125): map the eight invoke opcodes
to their invoke kind; any other opcode hits `LOG(FATAL)` (modelled `none`). -/
def classifyInvoke : InstructionCode → Option InvokeType
  | .INVOKE_DIRECT => some .kDirect
  | .INVOKE_DIRECT_RANGE => some .kDirect
  | .INVOKE_STATIC => some .kStatic
  | .INVOKE_STATIC_RANGE => some .kStatic
  | .INVOKE_SUPER => some .kSuper
  | .INVOKE_SUPER_RANGE => some .kSuper
  | .INVOKE_VIRTUAL => some .kVirtual
  | .INVOKE_VIRTUAL_RANGE => some .kVirtual
  | _ => none

/-- Result of the invocation-classification step (lines 92–140): the invoke
kind, the dex method index, and the callee's shorty. -/
structure ClassifyOut where
  invokeType : InvokeType
  dexMethodIdx : Nat
  shorty : String
  deriving DecidableEq, Inhabited, Repr

/-- Invocation classification (lines 98–140).  For `kUnknownMethod` the call
site is decoded: `DCHECK(called->IsRuntimeMethod())`,
`CHECK_LT(dex_pc, insns_size)`, then the opcode switch and
`DecodedInstruction::vB`; the shorty comes from
`ClassLinker::MethodShorty`.  Otherwise the explicit marker provides the
kind (`kStaticMethod ↦ kStatic`, anything else ↦ `kDirect`) and the callee's
own index and shorty are used. -/
def classifyStage (env : Env) (called0 : AbstractMethod) (type : TrampolineType)
    (callerPc : Nat) : Option ClassifyOut :=
  if type = .kUnknownMethod then
    if !called0.isRuntimeMethod then none
    else
      let dexPc := env.dexPcOf callerPc
      if env.insnsSize ≤ dexPc then none
      else
        match classifyInvoke (env.opcodeAt dexPc) with
        | none => none
        | some it =>
          let idx := env.vBAt dexPc
          some ⟨it, idx, env.methodShortyOf idx⟩
  else
    if called0.isRuntimeMethod then none
    else some ⟨if type = .kStaticMethod then .kStatic else .kDirect,
               called0.dexMethodIdx, called0.shorty⟩

/-- Words occupied by one shorty character: two for the 64-bit primitives
`J` and `D`, one otherwise (`c == 'J' || c == 'D' ? 2 : 1`). -/
def charWords (c : Char) : Nat :=
  if c = 'J' ∨ c = 'D' then 2 else 1

/-- The `args_in_regs` discovery loop (lines 143–151): accumulate the word
count of the parameters, capping at 3 (with an early break). -/
def computeArgsInRegs : List Char → Nat → Nat
  | [], acc => acc
  | c :: cs, acc =>
    let acc' := acc + charWords c
    if 3 < acc' then 3 else computeArgsInRegs cs acc'

/-- The register-argument walk (lines 166–174): process parameters while
`cur_arg - 1 < args_in_regs`, collecting `regs[cur_arg]` for each object
(`'L'`) parameter; return the collected references, the final `cur_arg` and
the unprocessed suffix of the shorty. -/
def regWalk (regs : Nat → Nat) (airs : Nat) : List Char → Nat → List Nat × Nat × List Char
  | [], curArg => ([], curArg, [])
  | c :: cs, curArg =>
    if curArg - 1 < airs then
      let rest := regWalk regs airs cs (curArg + charWords c)
      ((if c = 'L' then [regs curArg] else []) ++ rest.1, rest.2.1, rest.2.2)
    else ([], curArg, c :: cs)

/-- The stack-argument walk (lines 177–185): process the remaining
parameters unconditionally, collecting `regs[cur_arg]` for each `'L'`. -/
def stackWalk (regs : Nat → Nat) : List Char → Nat → List Nat
  | [], _ => []
  | c :: cs, curArg =>
    (if c = 'L' then [regs curArg] else []) ++ stackWalk regs cs (curArg + charWords c)

/-- The reference-scoping step (lines 141–186): the scoped JNI references
registered for one invocation, in registration order.  `cur_arg` starts at 1
(skipping the method word in `regs[0]`); for a non-static call the receiver
`regs[1]` is registered first and `args_in_regs` is bumped when below 3;
then the register walk runs, and the stack walk continues 11 words further
up (skipping LR, `Method*`, the spills for R1–R3 and the callee saves). -/
def scoperRefs (regs : Nat → Nat) (invokeType : InvokeType) (shorty : String) : List Nat :=
  let params := shorty.toList.drop 1
  let airs0 := computeArgsInRegs params 0
  let start :=
    if invokeType ≠ .kStatic then
      (([regs 1] : List Nat), 2, if airs0 < 3 then airs0 + 1 else airs0)
    else (([] : List Nat), 1, airs0)
  let w := regWalk regs start.2.2 params start.2.1
  start.1 ++ w.1 ++ stackWalk regs w.2.2 (w.2.1 + 11)

/-- Post-resolution method and thread-pending-exception pair
(lines 187–190): `ResolveMethod` is called exactly when the marker was
`kUnknownMethod`; a failed resolution returns `NULL` (here `none`) and
attaches the exception to the thread. -/
def resolveStage (env : Env) (st : ThreadState) (called0 : AbstractMethod)
    (type : TrampolineType) (dexMethodIdx : Nat) (invokeType : InvokeType) :
    Option AbstractMethod × Option Nat :=
  if type = .kUnknownMethod then
    match env.resolveMethod dexMethodIdx invokeType with
    | .ok m => (some m, st.pendingBefore)
    | .error e => (none, some e)
  else (some called0, st.pendingBefore)

/-- What the class-init gate hands to the dispatcher: the chosen code
pointer (`0` = `NULL`, i.e. no entry point was produced), the thread's
pending exception at that moment, the class-state table after
`EnsureInitialized`, the state observed for the callee's class (`none` when
the gate was skipped because an exception was already pending), and whether
the retry branch (static call on an initializing class) was taken. -/
structure GateOut where
  code : Nat
  pending2 : Option Nat
  statesAfter : Nat → ClassState
  observed : Option ClassState
  retryFlag : Bool

/-- The class-init gate (lines 191–211).  When no exception is pending:
`CHECK(!called->CheckIncompatibleClassChange(...))` (abort if it fires),
`EnsureInitialized(called_class, true, true)`, then select the code pointer
from the observed state — initialized: `called->GetCode()`; initializing and
static: `GetOatCodeFor(called)` (the trampoline left in place); initializing
and non-static: `called->GetCode()`; otherwise `DCHECK(IsErroneous())` and
no code.  When an exception is pending the whole block is skipped and the
code pointer stays `NULL`. -/
def gateStage (env : Env) (st : ThreadState) (invokeType : InvokeType)
    (calledOpt : Option AbstractMethod) (pending1 : Option Nat) : Option GateOut :=
  match pending1 with
  | some e =>
    some { code := 0, pending2 := some e, statesAfter := st.classStates,
           observed := none, retryFlag := false }
  | none =>
    match calledOpt with
    | none => none
    | some called =>
      if env.incompatible called invokeType then none
      else
        let cid := called.declaringClass
        let post := (env.ensureInit cid (st.classStates cid)).1
        let raised := (env.ensureInit cid (st.classStates cid)).2
        let statesAfter : Nat → ClassState := fun c => if c = cid then post else st.classStates c
        if post.isInitialized then
          some { code := called.methodCode, pending2 := raised, statesAfter := statesAfter,
                 observed := some post, retryFlag := false }
        else if post.isInitializing then
          if invokeType = .kStatic then
            some { code := env.getOatCodeFor called, pending2 := raised,
                   statesAfter := statesAfter, observed := some post, retryFlag := true }
          else
            some { code := called.methodCode, pending2 := raised, statesAfter := statesAfter,
                   observed := some post, retryFlag := false }
        else if post.isErroneous then
          some { code := 0, pending2 := raised, statesAfter := statesAfter,
                 observed := some post, retryFlag := false }
        else none

/-- The outcome dispatcher (lines 213–226).  `code == NULL`: route to
exception delivery — `regs[0] := thread->GetException()`, clear the pending
exception, return `art_deliver_exception_from_code`.  Otherwise assert
`DCHECK(called->GetDeclaringClass()->IsInitializing())` and
`DCHECK(code != resolution stub data)` (aborts), write the callee into
`regs[0]`, and return the chosen code. -/
def dispatchStage (env : Env) (regs : Nat → Nat) (calledOpt : Option AbstractMethod)
    (g : GateOut) : Option (Nat × (Nat → Nat) × Option Nat × Outcome) :=
  if g.code = 0 then
    some (env.deliverExceptionAddr,
          fun i => if i = 0 then g.pending2.getD 0 else regs i,
          none, .exceptionPath)
  else
    match calledOpt with
    | none => none
    | some called =>
      if (g.statesAfter called.declaringClass).isInitializing then
        if g.code = env.resolutionStubData then none
        else
          some (g.code,
                fun i => if i = 0 then called.self else regs i,
                g.pending2,
                if g.retryFlag then .retrySelf else .resolvedEntry)
      else none

/-- Everything the trampoline's resolution-and-dispatch tail (lines 187–227)
produces, together with observation fields recording what happened on the
way: whether `ResolveMethod` ran, the post-resolution callee, the class
state the gate observed, the pending exception at dispatch time, and the
outcome taken. -/
structure FinishOut where
  entry : Nat
  regsAfter : Nat → Nat
  pendingAfter : Option Nat
  classStatesAfter : Nat → ClassState
  resolutionCalled : Bool
  resolvedCallee : Option AbstractMethod
  observedState : Option ClassState
  pendingAtDispatch : Option Nat
  outcome : Outcome

/-- Resolution, class-init gate and outcome dispatch chained together
(lines 187–227 of the non-LLVM trampoline). -/
def finishStage (env : Env) (st : ThreadState) (called0 : AbstractMethod)
    (type : TrampolineType) (regs : Nat → Nat) (invokeType : InvokeType)
    (dexMethodIdx : Nat) : Option FinishOut :=
  let rs := resolveStage env st called0 type dexMethodIdx invokeType
  match gateStage env st invokeType rs.1 rs.2 with
  | none => none
  | some g =>
    match dispatchStage env regs rs.1 g with
    | none => none
    | some d =>
      some { entry := d.1, regsAfter := d.2.1, pendingAfter := d.2.2.1,
             outcome := d.2.2.2, classStatesAfter := g.statesAfter,
             resolutionCalled := decide (type = .kUnknownMethod),
             resolvedCallee := rs.1, observedState := g.observed,
             pendingAtDispatch := g.pending2 }

/-- The full observable result of one non-LLVM trampoline invocation.
`createdRefs` are the scoped references registered during the call (in
order); `openRefsAfter` are the JNI local references still open once
`ScopedJniEnvLocalRefState env_state` (line 87) has restored the reference
state at scope exit. -/
structure TrampResult where
  entry : Nat
  regsAfter : Nat → Nat
  pendingAfter : Option Nat
  classStatesAfter : Nat → ClassState
  createdRefs : List Nat
  openRefsAfter : List Nat
  invokeTypeUsed : InvokeType
  dexMethodIdxUsed : Nat
  shortyUsed : String
  resolutionCalled : Bool
  resolvedCallee : Option AbstractMethod
  observedState : Option ClassState
  pendingAtDispatch : Option Nat
  outcome : Outcome
  deriving Inhabited

/-- The trampoline body after calling-convention decode: classification,
reference scoping (compiled out on i386 by `!defined(__i386__)`), then
resolution, class-init gate and outcome dispatch. -/
def trampolineCore (arch : Arch) (env : Env) (st : ThreadState)
    (called0 : AbstractMethod) (type : TrampolineType) (regs : Nat → Nat)
    (callerPc : Nat) : Option TrampResult :=
  match classifyStage env called0 type callerPc with
  | none => none
  | some cls =>
    match finishStage env st called0 type regs cls.invokeType cls.dexMethodIdx with
    | none => none
    | some fin =>
      some { entry := fin.entry, regsAfter := fin.regsAfter,
             pendingAfter := fin.pendingAfter,
             classStatesAfter := fin.classStatesAfter,
             createdRefs := if arch = .i386 then [] else scoperRefs regs cls.invokeType cls.shorty,
             openRefsAfter := st.openRefs,
             invokeTypeUsed := cls.invokeType,
             dexMethodIdxUsed := cls.dexMethodIdx,
             shortyUsed := cls.shorty,
             resolutionCalled := fin.resolutionCalled,
             resolvedCallee := fin.resolvedCallee,
             observedState := fin.observedState,
             pendingAtDispatch := fin.pendingAtDispatch,
             outcome := fin.outcome }

/-- `UnresolvedDirectMethodTrampolineFromCode` (non-LLVM backend,
lines 35–228): decode the raw call state for the architecture, then run the
trampoline body. -/
def UnresolvedDirectMethodTrampolineFromCode (arch : Arch) (env : Env)
    (st : ThreadState) (called0 : AbstractMethod) (mem : Nat → Nat)
    (type : TrampolineType) : Option TrampResult :=
  match decodeCallingConvention arch env.calleeSaveFrameBytes mem with
  | none => none
  | some d => trampolineCore arch env st called0 type d.1 d.2

/-- All fields of a `TrampResult` except `createdRefs`, for comparing the
behaviour of two architectures modulo the reference-scoping step. -/
def TrampResult.behavior (r : TrampResult) :
    Nat × (Nat → Nat) × Option Nat × (Nat → ClassState) × List Nat × InvokeType ×
      Nat × String × Bool × Option AbstractMethod × Option ClassState ×
      Option Nat × Outcome :=
  (r.entry, r.regsAfter, r.pendingAfter, r.classStatesAfter, r.openRefsAfter,
   r.invokeTypeUsed, r.dexMethodIdxUsed, r.shortyUsed, r.resolutionCalled,
   r.resolvedCallee, r.observedState, r.pendingAtDispatch, r.outcome)

/-- Result of the LLVM-backend trampoline: the returned code pointer (`0` =
`NULL`), the contents of `*called_addr` after the call, the thread's pending
exception after the call, and (as an observation) the pending exception at
dispatch time. -/
structure LLVMResult where
  entry : Nat
  calledSlot : AbstractMethod
  pendingAfter : Option Nat
  pendingAtDispatch : Option Nat
  deriving DecidableEq, Inhabited, Repr

/-- `UnresolvedDirectMethodTrampolineFromCode` (ART_USE_LLVM_COMPILER
backend, lines 230–319).  Same classification and resolution; the gate adds
a lazy-link fallback (`if (code == NULL) code = GetOatCodeFor(called)`)
after `GetCode()`; the dispatcher (lines 310–318) only acts when
`code != NULL` — it asserts the two `DCHECK`s and stores the callee into
`*called_addr` — and otherwise returns `NULL` with the pending exception
left untouched. -/
def UnresolvedDirectMethodTrampolineFromCodeLLVM (env : Env) (st : ThreadState)
    (called0 : AbstractMethod) (type : TrampolineType) : Option LLVMResult :=
  let classifyRes : Option (InvokeType × Nat) :=
    if type = .kUnknownMethod then
      if !called0.isRuntimeMethod then none
      else if env.insnsSize ≤ env.currentDexPc then none
      else
        match classifyInvoke (env.opcodeAt env.currentDexPc) with
        | none => none
        | some it => some (it, env.vBAt env.currentDexPc)
    else
      if called0.isRuntimeMethod then none
      else some (if type = .kStaticMethod then .kStatic else .kDirect, called0.dexMethodIdx)
  match classifyRes with
  | none => none
  | some (invokeType, dexMethodIdx) =>
    let rs : Option AbstractMethod × Option Nat :=
      if type = .kUnknownMethod then
        match env.resolveMethod dexMethodIdx invokeType with
        | .ok m => (some m, st.pendingBefore)
        | .error e => (none, some e)
      else (some called0, st.pendingBefore)
    let gate : Option (Nat × Option Nat × Option AbstractMethod) :=
      match rs.2 with
      | some e => some (0, some e, rs.1)
      | none =>
        match rs.1 with
        | none => none
        | some called =>
          if env.incompatible called invokeType then none
          else
            let cid := called.declaringClass
            let post := (env.ensureInit cid (st.classStates cid)).1
            let raised := (env.ensureInit cid (st.classStates cid)).2
            if post.isInitialized then
              let c0 := called.methodCode
              some (if c0 = 0 then env.getOatCodeFor called else c0, raised, some called)
            else if post.isInitializing then
              if invokeType = .kStatic then
                some (env.getOatCodeFor called, raised, some called)
              else
                let c0 := called.methodCode
                some (if c0 = 0 then env.getOatCodeFor called else c0, raised, some called)
            else if post.isErroneous then some (0, raised, some called)
            else none
    match gate with
    | none => none
    | some (code, pending2, calledOpt) =>
      if code = 0 then
        some { entry := 0, calledSlot := called0, pendingAfter := pending2,
               pendingAtDispatch := pending2 }
      else
        match calledOpt with
        | none => none
        | some called =>
          let cid := called.declaringClass
          let post := fun c => if c = cid then (env.ensureInit cid (st.classStates cid)).1
                               else st.classStates c
          if (post cid).isInitializing then
            if code = env.resolutionStubData then none
            else
              some { entry := code, calledSlot := called, pendingAfter := pending2,
                     pendingAtDispatch := pending2 }
          else none

/-- Total number of argument words a shorty parameter list occupies. -/
def paramWords : List Char → Nat
  | [] => 0
  | c :: cs => charWords c + paramWords cs

/-- Modelled from the spec (4.4): the word index each parameter is read
from, walking the descriptor in order — skip two words for a 64-bit
primitive and one otherwise; a parameter sits in the register region while
the words consumed so far (`curArg - 1`) stay below the register-argument
capacity, and afterwards in the stack region, 11 words further up. -/
def specWalkIndices (airs : Nat) : List Char → Nat → List Nat
  | [], _ => []
  | c :: cs, curArg =>
    (if c = 'L' then [if curArg - 1 < airs then curArg else curArg + 11] else [])
      ++ specWalkIndices airs cs (curArg + charWords c)

/-- Modelled from the spec (4.4): the full list of word indices the scoper
must register — the receiver word 1 first for an instance call, then one
index per object parameter, the register capacity being 3 words counted
against all argument words including the receiver. -/
def specScoperIndices (invokeType : InvokeType) (params : List Char) : List Nat :=
  let recv := if invokeType = .kStatic then 0 else 1
  let airs := min (paramWords params + recv) 3
  (if invokeType = .kStatic then [] else [1]) ++ specWalkIndices airs params (1 + recv)

/-
Concrete sample data used by the witness theorems: a word memory whose word
`i` holds `100 + i`, and a handful of methods and environments describing
small, fully-evaluable scenarios.
-/

/-- Sample `regs` view: word `i` holds `100 + i`. -/
def sampleRegs : Nat → Nat := fun i => 100 + i

/-- Sample raw memory at `sp` (the ARM decode shifts it by one word). -/
def sampleMem : Nat → Nat := fun i => 100 + i

/-- A concrete non-runtime method, used as the explicit callee. -/
def mStatic : AbstractMethod :=
  { self := 1000, dexMethodIdx := 5, declaringClass := 7, methodCode := 555,
    shorty := "V", isRuntimeMethod := false }

/-- A concrete runtime method, as passed for `kUnknownMethod` calls. -/
def mRuntime : AbstractMethod :=
  { self := 2000, dexMethodIdx := 0, declaringClass := 0, methodCode := 0,
    shorty := "V", isRuntimeMethod := true }

/-- The concrete method the sample resolver returns. -/
def mResolved : AbstractMethod :=
  { self := 3000, dexMethodIdx := 5, declaringClass := 9, methodCode := 777,
    shorty := "VL", isRuntimeMethod := false }

/-- A benign sample environment: frame size 48 (ARM), call sites decode to
`invoke-static` with method index 5, resolution succeeds, classes keep their
current state, and the various runtime addresses are distinct markers. -/
def baseEnv : Env :=
  { calleeSaveFrameBytes := 48
    dexPcOf := fun _ => 0
    insnsSize := 4
    opcodeAt := fun _ => .INVOKE_STATIC
    vBAt := fun _ => 5
    methodShortyOf := fun _ => "VL"
    resolveMethod := fun _ _ => .ok mResolved
    incompatible := fun _ _ => false
    ensureInit := fun _ s => (s, none)
    getOatCodeFor := fun _ => 444
    resolutionStubData := 888
    deliverExceptionAddr := 999
    trampolineAddr := 444
    currentDexPc := 0 }

/-- A thread with no pending exception, all classes initialized, and no open
JNI local references. -/
def baseThread : ThreadState :=
  { pendingBefore := none, classStates := fun _ => .Initialized, openRefs := [] }

/-- Environment whose `EnsureInitialized` observes the class still
Initializing (another thread is running the initializer). -/
def envInitializing : Env :=
  { baseEnv with ensureInit := fun _ _ => (.Initializing, none) }

/-- Environment whose resolver fails, attaching exception object 7. -/
def envResolveFail : Env :=
  { baseEnv with resolveMethod := fun _ _ => .error 7 }

/-- Environment whose decoded call site holds an `invoke-interface`
instruction (not a legal unresolved-trampoline call site). -/
def envInterfaceOpcode : Env :=
  { baseEnv with opcodeAt := fun _ => .INVOKE_INTERFACE }

/-- Environment whose runtime callee-save frame size is wrong. -/
def envBadFrame : Env :=
  { baseEnv with calleeSaveFrameBytes := 0 }

/-- Sample run for C1: explicit static call, class observed Initializing. -/
def runC1 : TrampResult :=
  (UnresolvedDirectMethodTrampolineFromCode .arm envInitializing baseThread mStatic
    sampleMem .kStaticMethod).getD default

/-- Sample run for C2 (amended): decode + failing resolution. -/
def runC2 : TrampResult :=
  (UnresolvedDirectMethodTrampolineFromCode .arm envResolveFail baseThread mRuntime
    sampleMem .kUnknownMethod).getD default

/-- Sample run for C3: explicit direct call on an initialized class. -/
def runC3 : TrampResult :=
  (UnresolvedDirectMethodTrampolineFromCode .arm baseEnv baseThread mStatic
    sampleMem .kDirectMethod).getD default

/-- Sample run for C6: same scenario as C3, separately named. -/
def runC6 : TrampResult :=
  (UnresolvedDirectMethodTrampolineFromCode .arm baseEnv baseThread mStatic
    sampleMem .kDirectMethod).getD default

/-- Sample run for C8: explicit static marker, resolution skipped. -/
def runC8 : TrampResult :=
  (UnresolvedDirectMethodTrampolineFromCode .arm baseEnv baseThread mStatic
    sampleMem .kStaticMethod).getD default

/-- Sample run for C10: the i386 trampoline body on the benign scenario. -/
def runC10 : TrampResult :=
  (trampolineCore .i386 baseEnv baseThread mStatic .kDirectMethod sampleRegs 0).getD default

theorem computeArgsInRegs_eq (cs : List Char) : ∀ acc : Nat, acc ≤ 3 →
    computeArgsInRegs cs acc = min (acc + paramWords cs) 3 := by
  induction cs with
  | nil =>
    intro acc h
    simp only [computeArgsInRegs, paramWords]
    omega
  | cons c cs ih =>
    intro acc h
    simp only [computeArgsInRegs, paramWords]
    by_cases h3 : 3 < acc + charWords c
    · simp only [if_pos h3]
      omega
    · simp only [if_neg h3]
      rw [ih _ (by omega)]
      omega

theorem stackWalk_spec (regs : Nat → Nat) (airs : Nat) :
    ∀ (cs : List Char) (s : Nat), airs ≤ s - 1 →
      stackWalk regs cs (s + 11) = (specWalkIndices airs cs s).map regs := by
  intro cs
  induction cs with
  | nil => intro s _; rfl
  | cons c cs ih =>
    intro s h
    have hcond : ¬ (s - 1 < airs) := by omega
    simp only [stackWalk, specWalkIndices, List.map_append, if_neg hcond]
    rw [Nat.add_right_comm s 11 (charWords c), ih (s + charWords c) (by omega)]
    cases hc : (c = 'L' : Bool)
    all_goals simp_all

theorem walk_spec (regs : Nat → Nat) (airs : Nat) :
    ∀ (cs : List Char) (s : Nat),
      (regWalk regs airs cs s).1 ++
          stackWalk regs (regWalk regs airs cs s).2.2 ((regWalk regs airs cs s).2.1 + 11)
        = (specWalkIndices airs cs s).map regs := by
  intro cs
  induction cs with
  | nil => intro s; rfl
  | cons c cs ih =>
    intro s
    by_cases h : s - 1 < airs
    · simp only [regWalk, if_pos h, specWalkIndices, List.map_append, List.append_assoc]
      rw [ih (s + charWords c)]
      cases hc : (c = 'L' : Bool)
      all_goals simp_all
    · simp only [regWalk, if_neg h, List.nil_append]
      exact stackWalk_spec regs airs (c :: cs) s (by omega)

theorem specWalkIndices_length (airs : Nat) :
    ∀ (cs : List Char) (s : Nat),
      (specWalkIndices airs cs s).length = cs.countP (fun c => c == 'L') := by
  intro cs
  induction cs with
  | nil => intro s; rfl
  | cons c cs ih =>
    intro s
    simp only [specWalkIndices, List.length_append, List.countP_cons, ih (s + charWords c)]
    cases hc : (c = 'L' : Bool)
    all_goals simp_all [beq_iff_eq]
    all_goals omega

/-- Claim C5: for every shorty, the reference-scoping walk registers exactly
one scoped reference per object-typed (`'L'`) parameter, plus the receiver
for instance calls, and each reference reads the argument word prescribed by
the spec's walk (one word per primitive, two per 64-bit primitive, register
words up to the register-argument capacity of 3, then the stack-resident
words 11 words further up): the implementation's two-phase walk equals the
spec-level per-parameter word-index computation `specScoperIndices`. -/
theorem claim_C5_scoper_exactly_N_refs (regs : Nat → Nat) (it : InvokeType) (shorty : String) :
    scoperRefs regs it shorty = (specScoperIndices it (shorty.toList.drop 1)).map regs ∧
    (scoperRefs regs it shorty).length
      = (shorty.toList.drop 1).countP (fun c => c == 'L')
        + (if it = .kStatic then 0 else 1) := by
  have hmain : scoperRefs regs it shorty
      = (specScoperIndices it (shorty.toList.drop 1)).map regs := by
    unfold scoperRefs specScoperIndices
    dsimp only
    rw [computeArgsInRegs_eq (shorty.toList.drop 1) 0 (by omega)]
    by_cases hs : it = .kStatic
    · simp only [hs, ne_eq, not_true_eq_false, if_false, ite_false, List.nil_append,
                 Nat.zero_add, Nat.add_zero]
      exact walk_spec regs (min (paramWords (shorty.toList.drop 1)) 3) (shorty.toList.drop 1) 1
    · have hairs :
          (if min (0 + paramWords (shorty.toList.drop 1)) 3 < 3 then
              min (0 + paramWords (shorty.toList.drop 1)) 3 + 1
            else min (0 + paramWords (shorty.toList.drop 1)) 3)
            = min (paramWords (shorty.toList.drop 1) + 1) 3 := by
        split <;> omega
      simp only [ne_eq, hs, not_false_eq_true, if_true, ite_true, hairs]
      rw [List.append_assoc,
          walk_spec regs (min (paramWords (shorty.toList.drop 1) + 1) 3) (shorty.toList.drop 1) 2]
      simp
  refine ⟨hmain, ?_⟩
  rw [hmain, List.length_map]
  unfold specScoperIndices
  by_cases hs : it = .kStatic
  · simp [hs, specWalkIndices_length]
  · simp [hs, specWalkIndices_length]

theorem trampolineCore_inv (arch : Arch) (env : Env) (st : ThreadState)
    (c0 : AbstractMethod) (type : TrampolineType) (regs : Nat → Nat) (pc : Nat)
    (r : TrampResult)
    (hr : trampolineCore arch env st c0 type regs pc = some r) :
    ∃ cls fin, classifyStage env c0 type pc = some cls ∧
      finishStage env st c0 type regs cls.invokeType cls.dexMethodIdx = some fin ∧
      r.entry = fin.entry ∧ r.regsAfter = fin.regsAfter ∧
      r.pendingAfter = fin.pendingAfter ∧ r.classStatesAfter = fin.classStatesAfter ∧
      r.createdRefs = (if arch = .i386 then [] else scoperRefs regs cls.invokeType cls.shorty) ∧
      r.openRefsAfter = st.openRefs ∧ r.invokeTypeUsed = cls.invokeType ∧
      r.dexMethodIdxUsed = cls.dexMethodIdx ∧ r.shortyUsed = cls.shorty ∧
      r.resolutionCalled = fin.resolutionCalled ∧ r.resolvedCallee = fin.resolvedCallee ∧
      r.observedState = fin.observedState ∧ r.pendingAtDispatch = fin.pendingAtDispatch ∧
      r.outcome = fin.outcome := by
  unfold trampolineCore at hr
  split at hr
  · exact Option.noConfusion hr
  · rename_i cls h1
    split at hr
    · exact Option.noConfusion hr
    · rename_i fin h2
      cases hr
      exact ⟨cls, fin, h1, h2, rfl, rfl, rfl, rfl, rfl, rfl, rfl, rfl, rfl, rfl, rfl,
             rfl, rfl, rfl⟩

theorem finishStage_inv (env : Env) (st : ThreadState) (c0 : AbstractMethod)
    (type : TrampolineType) (regs : Nat → Nat) (it : InvokeType) (idx : Nat)
    (fin : FinishOut)
    (hf : finishStage env st c0 type regs it idx = some fin) :
    ∃ g d,
      gateStage env st it (resolveStage env st c0 type idx it).1
          (resolveStage env st c0 type idx it).2 = some g ∧
      dispatchStage env regs (resolveStage env st c0 type idx it).1 g = some d ∧
      fin.entry = d.1 ∧ fin.regsAfter = d.2.1 ∧ fin.pendingAfter = d.2.2.1 ∧
      fin.outcome = d.2.2.2 ∧ fin.classStatesAfter = g.statesAfter ∧
      fin.resolutionCalled = decide (type = .kUnknownMethod) ∧
      fin.resolvedCallee = (resolveStage env st c0 type idx it).1 ∧
      fin.observedState = g.observed ∧ fin.pendingAtDispatch = g.pending2 := by
  unfold finishStage at hf
  dsimp only at hf
  split at hf
  · exact Option.noConfusion hf
  · rename_i g h1
    split at hf
    · exact Option.noConfusion hf
    · rename_i d h2
      cases hf
      exact ⟨g, d, h1, h2, rfl, rfl, rfl, rfl, rfl, rfl, rfl, rfl, rfl⟩

theorem classifyStage_explicit (env : Env) (c0 : AbstractMethod)
    (type : TrampolineType) (pc : Nat) (cls : ClassifyOut)
    (h : classifyStage env c0 type pc = some cls) (ht : type ≠ .kUnknownMethod) :
    c0.isRuntimeMethod = false ∧
    cls = ⟨if type = .kStaticMethod then .kStatic else .kDirect,
           c0.dexMethodIdx, c0.shorty⟩ := by
  unfold classifyStage at h
  rw [if_neg ht] at h
  by_cases hrm : c0.isRuntimeMethod
  · rw [if_pos hrm] at h
    exact Option.noConfusion h
  · rw [if_neg hrm] at h
    cases h
    exact ⟨Bool.eq_false_iff.mpr hrm, rfl⟩

theorem gateStage_cases (env : Env) (st : ThreadState) (it : InvokeType)
    (calledOpt : Option AbstractMethod) (pending1 : Option Nat) (g : GateOut)
    (hg : gateStage env st it calledOpt pending1 = some g) :
    (g.code = 0 ∧ g.pending2 = pending1 ∧ pending1.isSome = true ∧
       g.statesAfter = st.classStates ∧ g.observed = none ∧ g.retryFlag = false) ∨
    (pending1 = none ∧ ∃ called, calledOpt = some called ∧
       env.incompatible called it = false ∧
       g.pending2 = (env.ensureInit called.declaringClass
           (st.classStates called.declaringClass)).2 ∧
       g.observed = some (env.ensureInit called.declaringClass
           (st.classStates called.declaringClass)).1 ∧
       g.statesAfter = (fun c => if c = called.declaringClass
           then (env.ensureInit called.declaringClass (st.classStates called.declaringClass)).1
           else st.classStates c) ∧
       (((env.ensureInit called.declaringClass
             (st.classStates called.declaringClass)).1.isInitialized = true ∧
           g.code = called.methodCode ∧ g.retryFlag = false) ∨
        ((env.ensureInit called.declaringClass
             (st.classStates called.declaringClass)).1.isInitialized = false ∧
           (env.ensureInit called.declaringClass
             (st.classStates called.declaringClass)).1.isInitializing = true ∧
           it = .kStatic ∧ g.code = env.getOatCodeFor called ∧ g.retryFlag = true) ∨
        ((env.ensureInit called.declaringClass
             (st.classStates called.declaringClass)).1.isInitialized = false ∧
           (env.ensureInit called.declaringClass
             (st.classStates called.declaringClass)).1.isInitializing = true ∧
           it ≠ .kStatic ∧ g.code = called.methodCode ∧ g.retryFlag = false) ∨
        ((env.ensureInit called.declaringClass
             (st.classStates called.declaringClass)).1.isInitialized = false ∧
           (env.ensureInit called.declaringClass
             (st.classStates called.declaringClass)).1.isInitializing = false ∧
           (env.ensureInit called.declaringClass
             (st.classStates called.declaringClass)).1.isErroneous = true ∧
           g.code = 0 ∧ g.retryFlag = false))) := by
  unfold gateStage at hg
  cases pending1 with
  | some e =>
    cases hg
    exact Or.inl ⟨rfl, rfl, rfl, rfl, rfl, rfl⟩
  | none =>
    cases calledOpt with
    | none => exact Option.noConfusion hg
    | some called =>
      refine Or.inr ⟨rfl, called, rfl, ?_⟩
      dsimp only at hg
      by_cases hinc : env.incompatible called it
      · rw [if_pos hinc] at hg
        exact Option.noConfusion hg
      · rw [if_neg hinc] at hg
        refine ⟨Bool.eq_false_iff.mpr hinc, ?_⟩
        by_cases hI : (env.ensureInit called.declaringClass
            (st.classStates called.declaringClass)).1.isInitialized
        · rw [if_pos hI] at hg
          cases hg
          exact ⟨rfl, rfl, rfl, Or.inl ⟨hI, rfl, rfl⟩⟩
        · rw [if_neg hI] at hg
          by_cases hG : (env.ensureInit called.declaringClass
              (st.classStates called.declaringClass)).1.isInitializing
          · rw [if_pos hG] at hg
            by_cases hS : it = InvokeType.kStatic
            · rw [if_pos hS] at hg
              cases hg
              exact ⟨rfl, rfl, rfl,
                Or.inr (Or.inl ⟨Bool.eq_false_iff.mpr hI, hG, hS, rfl, rfl⟩)⟩
            · rw [if_neg hS] at hg
              cases hg
              exact ⟨rfl, rfl, rfl,
                Or.inr (Or.inr (Or.inl ⟨Bool.eq_false_iff.mpr hI, hG, hS, rfl, rfl⟩))⟩
          · rw [if_neg hG] at hg
            by_cases hE : (env.ensureInit called.declaringClass
                (st.classStates called.declaringClass)).1.isErroneous
            · rw [if_pos hE] at hg
              cases hg
              exact ⟨rfl, rfl, rfl,
                Or.inr (Or.inr (Or.inr ⟨Bool.eq_false_iff.mpr hI,
                  Bool.eq_false_iff.mpr hG, hE, rfl, rfl⟩))⟩
            · rw [if_neg hE] at hg
              exact Option.noConfusion hg

theorem dispatchStage_code_zero (env : Env) (regs : Nat → Nat)
    (calledOpt : Option AbstractMethod) (g : GateOut) (h0 : g.code = 0) :
    dispatchStage env regs calledOpt g
      = some (env.deliverExceptionAddr,
              fun i => if i = 0 then g.pending2.getD 0 else regs i,
              none, .exceptionPath) := by
  unfold dispatchStage
  rw [if_pos h0]

theorem dispatchStage_inv (env : Env) (regs : Nat → Nat)
    (calledOpt : Option AbstractMethod) (g : GateOut)
    (d : Nat × (Nat → Nat) × Option Nat × Outcome)
    (hd : dispatchStage env regs calledOpt g = some d) (h0 : g.code ≠ 0) :
    ∃ called, calledOpt = some called ∧
      (g.statesAfter called.declaringClass).isInitializing = true ∧
      g.code ≠ env.resolutionStubData ∧
      d = (g.code, fun i => if i = 0 then called.self else regs i, g.pending2,
           if g.retryFlag then .retrySelf else .resolvedEntry) := by
  unfold dispatchStage at hd
  rw [if_neg h0] at hd
  cases calledOpt with
  | none => exact Option.noConfusion hd
  | some called =>
    dsimp only at hd
    by_cases hinit : (g.statesAfter called.declaringClass).isInitializing
    · rw [if_pos hinit] at hd
      by_cases hstub : g.code = env.resolutionStubData
      · rw [if_pos hstub] at hd
        exact Option.noConfusion hd
      · rw [if_neg hstub] at hd
        cases hd
        exact ⟨called, rfl, hinit, hstub, rfl⟩
    · rw [if_neg hinit] at hd
      exact Option.noConfusion hd

/-- Claim C4: when the invoke kind is unknown, the call-site decode maps
invoke-direct(/range) to Direct, invoke-static(/range) to Static,
invoke-super(/range) to Super and invoke-virtual(/range) to Virtual, and
every other opcode at that position hits `LOG(FATAL)` — modelled as the
abort `none`, which the trampoline body propagates instead of returning or
raising a recoverable error. -/
theorem claim_C4_call_site_decode :
    (∀ op, classifyInvoke op = some .kDirect
        ↔ (op = .INVOKE_DIRECT ∨ op = .INVOKE_DIRECT_RANGE)) ∧
    (∀ op, classifyInvoke op = some .kStatic
        ↔ (op = .INVOKE_STATIC ∨ op = .INVOKE_STATIC_RANGE)) ∧
    (∀ op, classifyInvoke op = some .kSuper
        ↔ (op = .INVOKE_SUPER ∨ op = .INVOKE_SUPER_RANGE)) ∧
    (∀ op, classifyInvoke op = some .kVirtual
        ↔ (op = .INVOKE_VIRTUAL ∨ op = .INVOKE_VIRTUAL_RANGE)) ∧
    (∀ op, classifyInvoke op = none
        ↔ (op = .INVOKE_INTERFACE ∨ op = .INVOKE_INTERFACE_RANGE ∨ op = .OTHER_OPCODE)) ∧
    (∀ (arch : Arch) (env : Env) (st : ThreadState) (c0 : AbstractMethod)
        (regs : Nat → Nat) (pc : Nat),
        classifyInvoke (env.opcodeAt (env.dexPcOf pc)) = none →
        trampolineCore arch env st c0 .kUnknownMethod regs pc = none) := by
  refine ⟨by decide, by decide, by decide, by decide, by decide, ?_⟩
  intro arch env st c0 regs pc h
  have hcs : classifyStage env c0 .kUnknownMethod pc = none := by
    unfold classifyStage
    by_cases hrm : c0.isRuntimeMethod
    · by_cases hpc : env.insnsSize ≤ env.dexPcOf pc
      · simp [hrm, hpc]
      · simp [hrm, hpc, h]
    · simp [hrm]
  simp [trampolineCore, hcs]

/-- Witness for C4: with an `invoke-interface` at the decoded call site the
trampoline body aborts. -/
theorem claim_C4_witness :
    classifyInvoke (envInterfaceOpcode.opcodeAt (envInterfaceOpcode.dexPcOf 0)) = none ∧
    trampolineCore .arm envInterfaceOpcode baseThread mRuntime .kUnknownMethod
        sampleRegs 0 = none :=
  ⟨rfl, claim_C4_call_site_decode.2.2.2.2.2 .arm envInterfaceOpcode baseThread mRuntime
    sampleRegs 0 rfl⟩

/-- Claim C6: the JNI local-reference state saved by
`ScopedJniEnvLocalRefState env_state` is restored on every exit path, so the
references open after the trampoline returns are exactly those open before
it started — in particular zero when none were open at entry, whatever the
outcome of the call. -/
theorem claim_C6_refs_released (arch : Arch) (env : Env) (st : ThreadState)
    (c0 : AbstractMethod) (mem : Nat → Nat) (type : TrampolineType) (r : TrampResult)
    (hr : UnresolvedDirectMethodTrampolineFromCode arch env st c0 mem type = some r) :
    r.openRefsAfter = st.openRefs ∧ (st.openRefs = [] → r.openRefsAfter = []) := by
  unfold UnresolvedDirectMethodTrampolineFromCode at hr
  split at hr
  · exact Option.noConfusion hr
  · obtain ⟨cls, fin, _, _, _, _, _, _, _, hopen, _⟩ :=
      trampolineCore_inv _ _ _ _ _ _ _ _ hr
    exact ⟨hopen, fun h => hopen.trans h⟩

/-- Witness for C6. -/
theorem claim_C6_witness :
    UnresolvedDirectMethodTrampolineFromCode .arm baseEnv baseThread mStatic sampleMem
        .kDirectMethod = some runC6 ∧
    runC6.openRefsAfter = baseThread.openRefs :=
  ⟨rfl, (claim_C6_refs_released .arm baseEnv baseThread mStatic sampleMem .kDirectMethod
    runC6 rfl).1⟩

/-- Claim C7: for every non-static call the receiver is the word
`regs[1]` — the first argument word after the method slot `regs[0]` — and it
is registered first, before and independently of the descriptor-driven walk
(the shorty is universally quantified). -/
theorem claim_C7_receiver_first (regs : Nat → Nat) (it : InvokeType) (shorty : String)
    (h : it ≠ .kStatic) :
    (scoperRefs regs it shorty).head? = some (regs 1) ∧
    regs 1 ∈ scoperRefs regs it shorty := by
  unfold scoperRefs
  dsimp only
  rw [if_pos h]
  exact ⟨rfl, by simp⟩

/-- Witness for C7. -/
theorem claim_C7_witness :
    (InvokeType.kDirect ≠ InvokeType.kStatic) ∧
    (scoperRefs sampleRegs .kDirect "VJL").head? = some (sampleRegs 1) ∧
    sampleRegs 1 ∈ scoperRefs sampleRegs .kDirect "VJL" :=
  ⟨by decide, claim_C7_receiver_first sampleRegs .kDirect "VJL" (by decide)⟩

/-- Claim C9: the calling-convention decode asserts the compiled-in frame
size (48 bytes on ARM, 32 on i386) against the runtime's value and aborts
the process on mismatch (`DCHECK_EQ`), so the whole trampoline aborts
rather than proceeding. -/
theorem claim_C9_frame_size_check (env : Env) (st : ThreadState) (c0 : AbstractMethod)
    (mem : Nat → Nat) (type : TrampolineType) :
    (env.calleeSaveFrameBytes ≠ 48 →
        decodeCallingConvention .arm env.calleeSaveFrameBytes mem = none ∧
        UnresolvedDirectMethodTrampolineFromCode .arm env st c0 mem type = none) ∧
    (env.calleeSaveFrameBytes ≠ 32 →
        decodeCallingConvention .i386 env.calleeSaveFrameBytes mem = none ∧
        UnresolvedDirectMethodTrampolineFromCode .i386 env st c0 mem type = none) := by
  constructor
  · intro h
    have hd : decodeCallingConvention .arm env.calleeSaveFrameBytes mem = none := by
      unfold decodeCallingConvention
      rw [if_neg h]
    refine ⟨hd, ?_⟩
    unfold UnresolvedDirectMethodTrampolineFromCode
    rw [hd]
  · intro h
    have hd : decodeCallingConvention .i386 env.calleeSaveFrameBytes mem = none := by
      unfold decodeCallingConvention
      rw [if_neg h]
    refine ⟨hd, ?_⟩
    unfold UnresolvedDirectMethodTrampolineFromCode
    rw [hd]

/-- Witness for C9: with frame size 0 both architectures abort. -/
theorem claim_C9_witness :
    envBadFrame.calleeSaveFrameBytes ≠ 48 ∧ envBadFrame.calleeSaveFrameBytes ≠ 32 ∧
    UnresolvedDirectMethodTrampolineFromCode .arm envBadFrame baseThread mStatic sampleMem
        .kStaticMethod = none ∧
    UnresolvedDirectMethodTrampolineFromCode .i386 envBadFrame baseThread mStatic sampleMem
        .kStaticMethod = none :=
  ⟨by decide, by decide,
   ((claim_C9_frame_size_check envBadFrame baseThread mStatic sampleMem
      .kStaticMethod).1 (by decide)).2,
   ((claim_C9_frame_size_check envBadFrame baseThread mStatic sampleMem
      .kStaticMethod).2 (by decide)).2⟩

/-- Claim C10: on i386 (non-LLVM) the whole reference-scoping step is
compiled out — every run registers zero scoped references — while the rest
of the behaviour (classification, resolution, class-init gate, outcome
dispatch, every result field except `createdRefs`) is identical to the ARM
body run on the same decoded registers. -/
theorem claim_C10_i386_refs_compiled_out :
    (∀ (env : Env) (st : ThreadState) (c0 : AbstractMethod) (type : TrampolineType)
        (regs : Nat → Nat) (pc : Nat) (r : TrampResult),
        trampolineCore .i386 env st c0 type regs pc = some r → r.createdRefs = []) ∧
    (∀ (env : Env) (st : ThreadState) (c0 : AbstractMethod) (type : TrampolineType)
        (regs : Nat → Nat) (pc : Nat),
        (trampolineCore .i386 env st c0 type regs pc).map TrampResult.behavior
          = (trampolineCore .arm env st c0 type regs pc).map TrampResult.behavior) := by
  constructor
  · intro env st c0 type regs pc r hr
    obtain ⟨cls, fin, _, _, _, _, _, _, hcr, _⟩ := trampolineCore_inv _ _ _ _ _ _ _ _ hr
    simpa using hcr
  · intro env st c0 type regs pc
    cases h1 : classifyStage env c0 type pc with
    | none => simp [trampolineCore, h1]
    | some cls =>
      cases h2 : finishStage env st c0 type regs cls.invokeType cls.dexMethodIdx with
      | none => simp [trampolineCore, h1, h2]
      | some fin => simp [trampolineCore, h1, h2, TrampResult.behavior]

/-- Witness for C10. -/
theorem claim_C10_witness :
    trampolineCore .i386 baseEnv baseThread mStatic .kDirectMethod sampleRegs 0
        = some runC10 ∧
    runC10.createdRefs = [] :=
  ⟨rfl, claim_C10_i386_refs_compiled_out.1 baseEnv baseThread mStatic .kDirectMethod
    sampleRegs 0 runC10 rfl⟩

theorem gateStage_pending_code_zero (env : Env) (st : ThreadState) (it : InvokeType)
    (calledOpt : Option AbstractMethod) (pending1 : Option Nat) (g : GateOut)
    (hWF : ∀ c s, ((env.ensureInit c s).2).isSome = true → (env.ensureInit c s).1 = .Erroneous)
    (hg : gateStage env st it calledOpt pending1 = some g)
    (e : Nat) (hp : g.pending2 = some e) : g.code = 0 := by
  rcases gateStage_cases env st it calledOpt pending1 g hg with
    ⟨h0, _, _, _, _, _⟩ | ⟨_, called, _, _, hp2, _, _, hbr⟩
  · exact h0
  · have hr2 : (env.ensureInit called.declaringClass
        (st.classStates called.declaringClass)).2 = some e := hp2.symm.trans hp
    have hpost : (env.ensureInit called.declaringClass
        (st.classStates called.declaringClass)).1 = .Erroneous :=
      hWF _ _ (by rw [hr2]; rfl)
    rcases hbr with ⟨hI, _, _⟩ | ⟨_, hG, _, _, _⟩ | ⟨_, hG, _, _, _⟩ | ⟨_, _, _, hcode, _⟩
    · rw [hpost] at hI
      exact absurd hI (by decide)
    · rw [hpost] at hG
      exact absurd hG (by decide)
    · rw [hpost] at hG
      exact absurd hG (by decide)
    · exact hcode

/-- Claim C2, amended: on the non-LLVM backend, whenever the thread carries
a pending exception at the moment the outcome dispatcher runs (resolution
failure or a failed class initialization, assuming `EnsureInitialized`
raises only when it leaves the class Erroneous), the trampoline writes the
exception object into the result slot `regs[0]`, clears the thread's pending
exception, and returns `art_deliver_exception_from_code` rather than any
method code.  (The LLVM-backend trampoline does not do this; see the
counterexample.) -/
theorem claim_C2_exception_to_delivery (arch : Arch) (env : Env) (st : ThreadState)
    (c0 : AbstractMethod) (mem : Nat → Nat) (type : TrampolineType) (r : TrampResult)
    (e : Nat)
    (hWF : ∀ c s, ((env.ensureInit c s).2).isSome = true → (env.ensureInit c s).1 = .Erroneous)
    (hr : UnresolvedDirectMethodTrampolineFromCode arch env st c0 mem type = some r)
    (hp : r.pendingAtDispatch = some e) :
    r.entry = env.deliverExceptionAddr ∧ r.regsAfter 0 = e ∧ r.pendingAfter = none ∧
    r.outcome = .exceptionPath := by
  unfold UnresolvedDirectMethodTrampolineFromCode at hr
  split at hr
  · exact Option.noConfusion hr
  · obtain ⟨cls, fin, hcl, hfin, hentry, hregs, hpend, hcsa, hcref, hopen, hit, hidx,
      hsho, hrc, hcallee, hobsf, hpdf, hoeq⟩ := trampolineCore_inv _ _ _ _ _ _ _ _ hr
    obtain ⟨g, d2, hg, hdis, hfe, hfr, hfp, hfo, hfcs, hfrc, hfcallee, hfobs, hfpd⟩ :=
      finishStage_inv _ _ _ _ _ _ _ _ hfin
    have hg2 : g.pending2 = some e := by
      rw [hpdf, hfpd] at hp
      exact hp
    have hcode0 : g.code = 0 := gateStage_pending_code_zero _ _ _ _ _ _ hWF hg e hg2
    rw [dispatchStage_code_zero _ _ _ _ hcode0] at hdis
    have hd2 := (Option.some.inj hdis).symm
    refine ⟨?_, ?_, ?_, ?_⟩
    · rw [hentry, hfe, hd2]
    · rw [hregs, hfr, hd2]
      simp [hg2]
    · rw [hpend, hfp, hd2]
    · rw [hoeq, hfo, hd2]

/-- Witness for C2 (amended): a failing resolution on the ARM non-LLVM
trampoline routes to exception delivery with the exception in `regs[0]`. -/
theorem claim_C2_witness :
    UnresolvedDirectMethodTrampolineFromCode .arm envResolveFail baseThread mRuntime sampleMem
        .kUnknownMethod = some runC2 ∧
    runC2.pendingAtDispatch = some 7 ∧
    runC2.entry = envResolveFail.deliverExceptionAddr ∧ runC2.regsAfter 0 = 7 ∧
    runC2.pendingAfter = none ∧ runC2.outcome = .exceptionPath := by
  have h := claim_C2_exception_to_delivery .arm envResolveFail baseThread mRuntime sampleMem
    .kUnknownMethod runC2 7 (by intro c s hx; simp [envResolveFail, baseEnv] at hx) rfl rfl
  exact ⟨rfl, rfl, h.1, h.2.1, h.2.2.1, h.2.2.2⟩

/-- Counterexample for C2 as stated: the claim also cites the
ART_USE_LLVM_COMPILER backend's dispatcher (lines 310–318), but on that
backend a call carrying a pending exception at dispatch time returns the
`NULL` entry point (0), does not return the exception-delivery entry
(999 here), does not write the exception anywhere, and leaves the pending
exception (object 7) attached to the thread instead of clearing it. -/
theorem claim_C2_counterexample :
    (UnresolvedDirectMethodTrampolineFromCodeLLVM envResolveFail baseThread mRuntime
        .kUnknownMethod).map (fun r => (r.entry, r.pendingAfter, r.pendingAtDispatch))
      = some (0, some 7, some 7) ∧
    envResolveFail.deliverExceptionAddr = 999 ∧ (0 : Nat) ≠ 999 :=
  ⟨rfl, rfl, by decide⟩

/-- Claim C1: when the class-init gate observes the callee's class in the
Initializing state and the call is static, the trampoline returns the oat
code for the callee — where the resolution trampoline is deliberately left
in place, so control re-enters this same path — with no exception raised and
the class-state table exactly as `EnsureInitialized` left it (the trampoline
itself changes no class state); a non-static call in the same situation gets
the resolved method's code directly. -/
theorem claim_C1_initializing_static_retry (arch : Arch) (env : Env) (st : ThreadState)
    (c0 : AbstractMethod) (mem : Nat → Nat) (type : TrampolineType)
    (r : TrampResult) (m : AbstractMethod)
    (hWF : ∀ c s, ((env.ensureInit c s).2).isSome = true → (env.ensureInit c s).1 = .Erroneous)
    (hr : UnresolvedDirectMethodTrampolineFromCode arch env st c0 mem type = some r)
    (hm : r.resolvedCallee = some m)
    (hobs : r.observedState = some .Initializing) :
    r.pendingAtDispatch = none ∧ r.pendingAfter = none ∧
    r.classStatesAfter m.declaringClass = .Initializing ∧
    (∀ c, c ≠ m.declaringClass → r.classStatesAfter c = st.classStates c) ∧
    (r.invokeTypeUsed = .kStatic → env.getOatCodeFor m ≠ 0 →
        r.outcome = .retrySelf ∧ r.entry = env.getOatCodeFor m ∧
        (env.getOatCodeFor m = env.trampolineAddr → r.entry = env.trampolineAddr)) ∧
    (r.invokeTypeUsed ≠ .kStatic → m.methodCode ≠ 0 →
        r.outcome = .resolvedEntry ∧ r.entry = m.methodCode) := by
  unfold UnresolvedDirectMethodTrampolineFromCode at hr
  split at hr
  · exact Option.noConfusion hr
  · obtain ⟨cls, fin, hcl, hfin, hentry, hregs, hpend, hcsa, hcref, hopen, hit, hidx,
      hsho, hrc, hcallee, hobsf, hpdf, hoeq⟩ := trampolineCore_inv _ _ _ _ _ _ _ _ hr
    obtain ⟨g, d2, hg, hdis, hfe, hfr, hfp, hfo, hfcs, hfrc, hfcallee, hfobs, hfpd⟩ :=
      finishStage_inv _ _ _ _ _ _ _ _ hfin
    rcases gateStage_cases _ _ _ _ _ _ hg with
      ⟨_, _, _, _, hgobs, _⟩ | ⟨hp1, called, hcopt, hinc, hp2, hgobs, hst, hbr⟩
    · rw [hobsf, hfobs, hgobs] at hobs
      exact Option.noConfusion hobs
    · have hcm : m = called := by
        rw [hcallee, hfcallee, hcopt] at hm
        exact (Option.some.inj hm).symm
      subst hcm
      have hpost : (env.ensureInit m.declaringClass (st.classStates m.declaringClass)).1
          = ClassState.Initializing := by
        rw [hobsf, hfobs, hgobs] at hobs
        exact Option.some.inj hobs
      have hraised : (env.ensureInit m.declaringClass (st.classStates m.declaringClass)).2
          = none := by
        cases hx : (env.ensureInit m.declaringClass (st.classStates m.declaringClass)).2 with
        | none => rfl
        | some x =>
          have hE := hWF m.declaringClass (st.classStates m.declaringClass) (by rw [hx]; rfl)
          rw [hpost] at hE
          exact absurd hE (by decide)
      have hgp : g.pending2 = none := by rw [hp2, hraised]
      have hpad : r.pendingAtDispatch = none := by rw [hpdf, hfpd, hgp]
      have hpafter : r.pendingAfter = none := by
        by_cases hc0 : g.code = 0
        · rw [dispatchStage_code_zero _ _ _ _ hc0] at hdis
          have hd2 := (Option.some.inj hdis).symm
          rw [hpend, hfp, hd2]
        · obtain ⟨called2, hcopt2, hinit2, hstub2, hd2⟩ := dispatchStage_inv _ _ _ _ _ hdis hc0
          rw [hpend, hfp, hd2]
          simpa using hgp
      have hcs1 : r.classStatesAfter m.declaringClass = .Initializing := by
        rw [hcsa, hfcs, hst]
        simp [hpost]
      have hcs2 : ∀ c, c ≠ m.declaringClass → r.classStatesAfter c = st.classStates c := by
        intro c hc
        rw [hcsa, hfcs, hst]
        simp [hc]
      refine ⟨hpad, hpafter, hcs1, hcs2, ?_, ?_⟩
      · intro hstat hoat0
        have hitg : cls.invokeType = .kStatic := by
          rw [← hit]
          exact hstat
        rcases hbr with ⟨hI, _, _⟩ | ⟨_, _, _, hcode, hretry⟩ | ⟨_, _, hns, _, _⟩ |
          ⟨_, hG, _, _, _⟩
        · rw [hpost] at hI
          exact absurd hI (by decide)
        · have hc0 : g.code ≠ 0 := by
            rw [hcode]
            exact hoat0
          obtain ⟨called2, hcopt2, hinit2, hstub2, hd2⟩ := dispatchStage_inv _ _ _ _ _ hdis hc0
          refine ⟨?_, ?_, ?_⟩
          · rw [hoeq, hfo, hd2]
            simp [hretry]
          · rw [hentry, hfe, hd2]
            simpa using hcode
          · intro htr
            rw [hentry, hfe, hd2]
            simpa [htr] using hcode.trans htr
        · exact absurd hitg hns
        · rw [hpost] at hG
          exact absurd hG (by decide)
      · intro hstat hcode0
        have hitg : cls.invokeType ≠ .kStatic := by
          rw [← hit]
          exact hstat
        rcases hbr with ⟨hI, _, _⟩ | ⟨_, _, hs, _, _⟩ | ⟨_, _, _, hcode, hretry⟩ |
          ⟨_, hG, _, _, _⟩
        · rw [hpost] at hI
          exact absurd hI (by decide)
        · exact absurd hs hitg
        · have hc0 : g.code ≠ 0 := by
            rw [hcode]
            exact hcode0
          obtain ⟨called2, hcopt2, hinit2, hstub2, hd2⟩ := dispatchStage_inv _ _ _ _ _ hdis hc0
          refine ⟨?_, ?_⟩
          · rw [hoeq, hfo, hd2]
            simp [hretry]
          · rw [hentry, hfe, hd2]
            simpa using hcode
        · rw [hpost] at hG
          exact absurd hG (by decide)

/-- Witness for C1: explicit static call, class observed Initializing —
entry is the address where the trampoline is left in place, nothing raised,
class states untouched beyond `EnsureInitialized`. -/
theorem claim_C1_witness :
    UnresolvedDirectMethodTrampolineFromCode .arm envInitializing baseThread mStatic sampleMem
        .kStaticMethod = some runC1 ∧
    runC1.resolvedCallee = some mStatic ∧
    runC1.observedState = some .Initializing ∧
    runC1.pendingAtDispatch = none ∧ runC1.pendingAfter = none ∧
    runC1.classStatesAfter mStatic.declaringClass = .Initializing ∧
    runC1.outcome = .retrySelf ∧ runC1.entry = envInitializing.trampolineAddr := by
  have h := claim_C1_initializing_static_retry .arm envInitializing baseThread mStatic sampleMem
    .kStaticMethod runC1 mStatic (by intro c s hx; simp [envInitializing, baseEnv] at hx)
    rfl rfl rfl
  exact ⟨rfl, rfl, rfl, h.1, h.2.1, h.2.2.1, (h.2.2.2.2.1 rfl (by decide)).1,
         (h.2.2.2.2.1 rfl (by decide)).2.2 rfl⟩

/-- Claim C3: for every non-retry, non-exception outcome (`resolvedEntry`),
the returned entry point is never the trampoline's own resolution-stub
address (the `DCHECK` of line 223 aborts otherwise), it is the resolved
method's code, and that method's declaring class is at least Initializing in
the class-state table the call leaves behind (the `DCHECK` of line 221). -/
theorem claim_C3_non_retry_postcondition (arch : Arch) (env : Env) (st : ThreadState)
    (c0 : AbstractMethod) (mem : Nat → Nat) (type : TrampolineType) (r : TrampResult)
    (hr : UnresolvedDirectMethodTrampolineFromCode arch env st c0 mem type = some r)
    (hout : r.outcome = .resolvedEntry) :
    r.entry ≠ env.resolutionStubData ∧
    ∃ m, r.resolvedCallee = some m ∧ r.entry = m.methodCode ∧
      (r.classStatesAfter m.declaringClass).isInitializing = true := by
  unfold UnresolvedDirectMethodTrampolineFromCode at hr
  split at hr
  · exact Option.noConfusion hr
  · obtain ⟨cls, fin, hcl, hfin, hentry, hregs, hpend, hcsa, hcref, hopen, hit, hidx,
      hsho, hrc, hcallee, hobsf, hpdf, hoeq⟩ := trampolineCore_inv _ _ _ _ _ _ _ _ hr
    obtain ⟨g, d2, hg, hdis, hfe, hfr, hfp, hfo, hfcs, hfrc, hfcallee, hfobs, hfpd⟩ :=
      finishStage_inv _ _ _ _ _ _ _ _ hfin
    by_cases hc0 : g.code = 0
    · rw [dispatchStage_code_zero _ _ _ _ hc0] at hdis
      have hd2 := (Option.some.inj hdis).symm
      rw [hoeq, hfo, hd2] at hout
      simp at hout
    · obtain ⟨called, hcopt, hinit, hstub, hd2⟩ := dispatchStage_inv _ _ _ _ _ hdis hc0
      have hretry : g.retryFlag = false := by
        cases hx : g.retryFlag with
        | false => rfl
        | true =>
          rw [hoeq, hfo, hd2, hx] at hout
          simp at hout
      have hent : r.entry = g.code := by
        rw [hentry, hfe, hd2]
      rcases gateStage_cases _ _ _ _ _ _ hg with
        ⟨hzero, _, _, _, _, _⟩ | ⟨hp1, called2, hcopt2, hinc, hp2, hgobs, hst, hbr⟩
      · exact absurd hzero hc0
      · have hc2 : called2 = called := by
          rw [hcopt2] at hcopt
          exact Option.some.inj hcopt
        subst hc2
        rcases hbr with ⟨hI, hcode, _⟩ | ⟨_, _, _, _, hrt⟩ | ⟨_, hG, _, hcode, _⟩ |
          ⟨_, _, _, hcode, _⟩
        · refine ⟨?_, called2, ?_, ?_, ?_⟩
          · rw [hent]
            exact hstub
          · rw [hcallee, hfcallee, hcopt2]
          · rw [hent, hcode]
          · rw [hcsa, hfcs]
            exact hinit
        · rw [hrt] at hretry
          exact Bool.noConfusion hretry
        · refine ⟨?_, called2, ?_, ?_, ?_⟩
          · rw [hent]
            exact hstub
          · rw [hcallee, hfcallee, hcopt2]
          · rw [hent, hcode]
          · rw [hcsa, hfcs]
            exact hinit
        · exact absurd hcode hc0

/-- Witness for C3: a resolved direct call on an initialized class returns
the method's own code, distinct from the resolution stub. -/
theorem claim_C3_witness :
    UnresolvedDirectMethodTrampolineFromCode .arm baseEnv baseThread mStatic sampleMem
        .kDirectMethod = some runC3 ∧
    runC3.outcome = .resolvedEntry ∧
    runC3.entry ≠ baseEnv.resolutionStubData ∧
    runC3.resolvedCallee = some mStatic ∧ runC3.entry = mStatic.methodCode := by
  have h := claim_C3_non_retry_postcondition .arm baseEnv baseThread mStatic sampleMem
    .kDirectMethod runC3 rfl rfl
  obtain ⟨hstub, m, hm1, hm2, hm3⟩ := h
  have hmm : m = mStatic := by
    have h0 : runC3.resolvedCallee = some mStatic := rfl
    rw [h0] at hm1
    exact (Option.some.inj hm1).symm
  subst hmm
  exact ⟨rfl, rfl, hstub, hm1, hm2⟩

/-- Claim C8: `ResolveMethod` runs exactly when the trampoline marker is
`kUnknownMethod`; for an explicit marker the passed-in callee is used as-is
and its invoke kind is taken directly from the marker
(`kStaticMethod ↦ kStatic`, otherwise `kDirect`). -/
theorem claim_C8_resolution_iff_unknown (arch : Arch) (env : Env) (st : ThreadState)
    (c0 : AbstractMethod) (mem : Nat → Nat) (type : TrampolineType) (r : TrampResult)
    (hr : UnresolvedDirectMethodTrampolineFromCode arch env st c0 mem type = some r) :
    (r.resolutionCalled = true ↔ type = .kUnknownMethod) ∧
    (type ≠ .kUnknownMethod →
        r.resolvedCallee = some c0 ∧
        r.invokeTypeUsed = (if type = .kStaticMethod then InvokeType.kStatic else .kDirect)) := by
  unfold UnresolvedDirectMethodTrampolineFromCode at hr
  split at hr
  · exact Option.noConfusion hr
  · obtain ⟨cls, fin, hcl, hfin, hentry, hregs, hpend, hcsa, hcref, hopen, hit, hidx,
      hsho, hrc, hcallee, hobsf, hpdf, hoeq⟩ := trampolineCore_inv _ _ _ _ _ _ _ _ hr
    obtain ⟨g, d2, hg, hdis, hfe, hfr, hfp, hfo, hfcs, hfrc, hfcallee, hfobs, hfpd⟩ :=
      finishStage_inv _ _ _ _ _ _ _ _ hfin
    constructor
    · rw [hrc, hfrc]
      simp
    · intro ht
      have hcls := classifyStage_explicit _ _ _ _ _ hcl ht
      constructor
      · rw [hcallee, hfcallee]
        unfold resolveStage
        rw [if_neg ht]
      · rw [hit, hcls.2]

/-- Witness for C8: an explicit static marker skips resolution and uses the
marker's kind. -/
theorem claim_C8_witness :
    UnresolvedDirectMethodTrampolineFromCode .arm baseEnv baseThread mStatic sampleMem
        .kStaticMethod = some runC8 ∧
    (runC8.resolutionCalled = true ↔ TrampolineType.kStaticMethod = .kUnknownMethod) ∧
    runC8.resolvedCallee = some mStatic ∧ runC8.invokeTypeUsed = .kStatic := by
  have h := claim_C8_resolution_iff_unknown .arm baseEnv baseThread mStatic sampleMem
    .kStaticMethod runC8 rfl
  have h2 := h.2 (by decide)
  exact ⟨rfl, h.1, h2.1, by simpa using h2.2⟩

end ArtStubs
